import Mathlib

/-!
Shallow embedding of the module `asgiref/local.py`: the dual-mode storage
facade `Local` together with its inner context-scoped storage class `_CVar`,
and theorems checking the specification claims against it.

Modelling conventions.

* Stored values are opaque caller data, modelled by the inductive `Val`.
* A Python dict with string keys is an insertion-ordered association list
  with unique keys, mutated in place.  Object identity of the dicts held by
  the context variable matters (copying a context shares the same dict
  object), so those dicts live in an explicit heap `Heap` and are referred
  to by index (`Ref`).
* A context is represented by the value the single `ContextVar` created by
  `_CVar.__init__` has in it: `none` when the variable was never set in
  that context, `some r` when it holds the dict object `r`.  Copying a
  context (`contextvars.copy_context`, which is what `async_to_sync` and
  `sync_to_async` use to carry state across threads) copies the binding,
  i.e. the copy starts with the same `Option Ref` value.
* `threading.local()` is a table of per-thread attribute dicts (`TLStore`),
  keyed by an abstract thread id.
* The only exception kind the source raises is `AttributeError` for a
  missing key (`_CVar.__getattr__`, `_CVar.__delattr__`, and the
  `getattr`/`delattr` on a `threading.local`); it is modelled by
  `Err.MissingKey` carrying the key.
* Attribute resolution models the attributes defined in the source file:
  the instance `__dict__` of the facade (filled only by the reserved branch
  of `Local.__setattr__`), the methods defined by `class Local` itself
  (`localClassAttrs`, found by normal lookup before `__getattr__` fires),
  and the `__getattr__` fallback.  Dunder attributes inherited from
  `object` are outside the model.
-/

namespace Asgiref

/-- Opaque caller-supplied values stored through the accessor surface. -/
inductive Val where
  | vint (n : Int)
  | vbool (b : Bool)
  | vstr (s : String)
  | vnone
deriving DecidableEq, Repr

/-- Python truthiness of a stored value (what `if self._thread_critical`
tests when the slot has been overwritten by a caller value). -/
def truthyVal : Val → Bool
  | .vint n => decide (n ≠ 0)
  | .vbool b => b
  | .vstr s => decide (s ≠ "")
  | .vnone => false

/-- The single error kind of the module: every failure raised by the code is
an `AttributeError` naming the missing key. -/
inductive Err where
  | MissingKey (key : String)
deriving DecidableEq, Repr

/-- Runtime objects that can sit in an instance `__dict__` slot of the
facade or of the `_CVar`: plain stored values, the `ContextVar` created by
`_CVar.__init__`, the `threading.RLock`, the two possible `_storage`
objects, and bound methods found on the class. -/
inductive PyVal where
  | v (x : Val)
  | ctxvar
  | lockObj
  | storeCVar
  | storeTLocal
  | method
deriving DecidableEq, Repr

/-- Python truthiness of a slot value: every non-`Val` object here is truthy. -/
def truthyPyVal : PyVal → Bool
  | .v x => truthyVal x
  | _ => true

instance {ε α : Type} [DecidableEq ε] [DecidableEq α] : DecidableEq (Except ε α) :=
  fun x y =>
    match x, y with
    | .ok a, .ok b =>
      if h : a = b then .isTrue (by rw [h]) else .isFalse (by intro hc; cases hc; exact h rfl)
    | .error a, .error b =>
      if h : a = b then .isTrue (by rw [h]) else .isFalse (by intro hc; cases hc; exact h rfl)
    | .ok _, .error _ => .isFalse (by intro hc; cases hc)
    | .error _, .ok _ => .isFalse (by intro hc; cases hc)

/-- Dict lookup `d[k]` (first matching key). -/
def alLookup {β : Type} : List (String × β) → String → Option β
  | [], _ => none
  | (k1, x) :: rest, k => if k1 = k then some x else alLookup rest k

/-- Dict assignment `d[k] = x`: overwrite in place, or append a new entry. -/
def alInsert {β : Type} : List (String × β) → String → β → List (String × β)
  | [], k, x => [(k, x)]
  | (k1, x1) :: rest, k, x =>
    if k1 = k then (k, x) :: rest else (k1, x1) :: alInsert rest k x

/-- Dict deletion `del d[k]`: drop the entry of `k` (callers of this helper
have already checked presence, as the source does via `try`/`except`). -/
def alErase {β : Type} : List (String × β) → String → List (String × β)
  | [], _ => []
  | (k1, x1) :: rest, k => if k1 = k then rest else (k1, x1) :: alErase rest k

/-- Keys pairwise distinct: every dict the code builds satisfies this. -/
def alKeysNodup {β : Type} : List (String × β) → Bool
  | [] => true
  | (k1, _) :: rest => (alLookup rest k1).isNone && alKeysNodup rest

abbrev Dict := List (String × Val)
abbrev Heap := List Dict
abbrev Ref := Nat
abbrev Ctx := Option Ref
abbrev TLStore := List (Nat × Dict)

/-- The dict object a reference denotes. -/
def hGet : Heap → Nat → Dict
  | [], _ => []
  | d :: _, 0 => d
  | _ :: rest, r + 1 => hGet rest r

/-- In-place mutation of the dict object `r`. -/
def hSet : Heap → Nat → Dict → Heap
  | [], _, _ => []
  | _ :: rest, 0, d => d :: rest
  | d1 :: rest, r + 1, d => d1 :: hSet rest r d

/-- `contextvars.copy_context` restricted to the one context variable: the
copy holds the same value, hence refers to the same dict object. -/
def copyContext (c : Ctx) : Ctx := c

/-- `self._data.get({})`: the dict object the current context holds, or a
fresh empty dict when the variable is unset in this context. -/
def ctxDict (h : Heap) (c : Ctx) : Dict :=
  match c with
  | some r => hGet h r
  | none => []

/-- `getattr` on the `_CVar` instance.  Its `__dict__` holds `_data` (the
`ContextVar`, unless overwritten through `_CVar.__setattr__`), so reading
`_data` returns the slot; any other key goes through `_CVar.__getattr__`
(local.py lines 15-20): `self._data.get({})[key]`, raising `AttributeError`
when absent.  `dslot` is the `_data` slot, `h` the dict heap, `c` the value
of the context variable in the calling context. -/
def cvarGetattr (dslot : PyVal) (h : Heap) (c : Ctx) (k : String) : Except Err PyVal :=
  if k = "_data" then .ok dslot
  else
    match dslot with
    | .ctxvar =>
      match alLookup (ctxDict h c) k with
      | some x => .ok (.v x)
      | none => .error (.MissingKey k)
    | _ => .error (.MissingKey k)

/-- `_CVar.__setattr__` (local.py lines 22-28): the key `_data` is stored on
the object itself; any other key is written into the dict
`self._data.get({})`, which is then set back into the context variable.
Returns (result, new `_data` slot, new heap, new context-variable value).
If the `_data` slot is not the `ContextVar`, `self._data.get` raises
`AttributeError`. -/
def cvarSetattr (dslot : PyVal) (h : Heap) (c : Ctx) (k : String) (x : Val) :
    Except Err Unit × PyVal × Heap × Ctx :=
  if k = "_data" then (.ok (), .v x, h, c)
  else
    match dslot with
    | .ctxvar =>
      match c with
      | some r => (.ok (), .ctxvar, hSet h r (alInsert (hGet h r) k x), some r)
      | none => (.ok (), .ctxvar, h ++ [alInsert [] k x], some h.length)
    | _ => (.error (.MissingKey k), dslot, h, c)

/-- `_CVar.__delattr__` (local.py lines 30-36): delete the key from the
current dict and set the dict back into the context variable; a missing key
raises `AttributeError` before anything is written.  There is no special
case for `_data` here. -/
def cvarDelattr (dslot : PyVal) (h : Heap) (c : Ctx) (k : String) :
    Except Err Unit × PyVal × Heap × Ctx :=
  match dslot with
  | .ctxvar =>
    match c with
    | some r =>
      if (alLookup (hGet h r) k).isSome then
        (.ok (), .ctxvar, hSet h r (alErase (hGet h r) k), some r)
      else (.error (.MissingKey k), .ctxvar, h, some r)
    | none => (.error (.MissingKey k), .ctxvar, h, none)
  | _ => (.error (.MissingKey k), dslot, h, c)

/-- The per-thread attribute dict a `threading.local` holds for thread `t`
(empty when the thread has not touched it yet). -/
def tdictOf : TLStore → Nat → Dict
  | [], _ => []
  | (t1, d) :: rest, t => if t1 = t then d else tdictOf rest t

/-- Replace (or lazily create) the dict of thread `t`. -/
def tlPut : TLStore → Nat → Dict → TLStore
  | [], t, d => [(t, d)]
  | (t1, d1) :: rest, t, d =>
    if t1 = t then (t, d) :: rest else (t1, d1) :: tlPut rest t d

/-- `getattr` on a `threading.local`: look only in the calling thread's
dict; a missing attribute raises `AttributeError`. -/
def tlGet (ts : TLStore) (t : Nat) (k : String) : Except Err Val :=
  match alLookup (tdictOf ts t) k with
  | some x => .ok x
  | none => .error (.MissingKey k)

/-- `setattr` on a `threading.local`: write into the calling thread's dict. -/
def tlSet (ts : TLStore) (t : Nat) (k : String) (x : Val) : TLStore :=
  tlPut ts t (alInsert (tdictOf ts t) k x)

/-- `delattr` on a `threading.local`: delete from the calling thread's
dict; a missing attribute raises `AttributeError`. -/
def tlDel (ts : TLStore) (t : Nat) (k : String) : Except Err Unit × TLStore :=
  if (alLookup (tdictOf ts t) k).isSome then
    (.ok (), tlPut ts t (alErase (tdictOf ts t) k))
  else (.error (.MissingKey k), ts)

/-- The `Local` facade state.  `facade` is its instance `__dict__`
(populated only through the reserved branch of `Local.__setattr__`);
`dataSlot` is the `_data` slot of the inner `_CVar` (meaningful while
`_storage` is the `_CVar`); `heap` holds the dict objects reachable from
the context variable; `threads` is the `threading.local` table used while
`_storage` is thread-local. -/
structure Local where
  facade : List (String × PyVal)
  dataSlot : PyVal
  heap : Heap
  threads : TLStore
deriving DecidableEq, Repr

/-- `Local.__init__` (local.py lines 75-85): stores `_thread_critical`, the
`RLock` `_thread_lock` and `_storage` on the instance (all three go through
the reserved branch of `Local.__setattr__`); the storage object is a
`threading.local` when `thread_critical` else a `_CVar`, whose `__init__`
sets `_data` to a fresh `ContextVar`. -/
def mkLocal (thread_critical : Bool) : Local :=
  { facade := [("_thread_critical", .v (.vbool thread_critical)),
               ("_thread_lock", .lockObj),
               ("_storage", if thread_critical then .storeTLocal else .storeCVar)],
    dataSlot := .ctxvar,
    heap := [],
    threads := [] }

/-- The attribute names `Local.__setattr__` (local.py line 106) sends to
`super().__setattr__`, i.e. to the instance `__dict__`. -/
def reservedNames : List String :=
  ["_local", "_storage", "_thread_critical", "_thread_lock"]

/-- The attributes `class Local` itself defines.  Normal attribute lookup
finds them (as bound methods) after the instance `__dict__` and before
`__getattr__` ever fires. -/
def localClassAttrs : List String :=
  ["__init__", "_lock_storage", "__getattr__", "__setattr__", "__delattr__"]

/-- The current `_storage` object of the facade. -/
def storageSlot (s : Local) : PyVal :=
  (alLookup s.facade "_storage").getD (.v .vnone)

/-- Truthiness of `self._thread_critical`, the test `_lock_storage`
performs (local.py line 89). -/
def isCritical (s : Local) : Bool :=
  truthyPyVal ((alLookup s.facade "_thread_critical").getD (.v .vnone))

/-- Full attribute read `local.key` from context `c` on thread `t`: the
instance `__dict__` first, then the class attributes, then
`Local.__getattr__` (local.py lines 101-103), which under `_lock_storage`
performs `getattr(storage, key)` on `self._storage`.  Reading never
mutates any state. -/
def Local.getattrOp (s : Local) (c : Ctx) (t : Nat) (k : String) : Except Err PyVal :=
  match alLookup s.facade k with
  | some pv => .ok pv
  | none =>
    if k ∈ localClassAttrs then .ok .method
    else
      match storageSlot s with
      | .storeCVar => cvarGetattr s.dataSlot s.heap c k
      | .storeTLocal => (tlGet s.threads t k).map .v
      | _ => .error (.MissingKey k)

/-- `Local.__setattr__` (local.py lines 105-109): the reserved names go to
the instance `__dict__`; any other key is `setattr(storage, key, value)`
under `_lock_storage`.  Returns (result, new state, new context value). -/
def Local.setattrOp (s : Local) (c : Ctx) (t : Nat) (k : String) (x : Val) :
    Except Err Unit × Local × Ctx :=
  if k ∈ reservedNames then
    (.ok (), { s with facade := alInsert s.facade k (.v x) }, c)
  else
    match storageSlot s with
    | .storeCVar =>
      let out := cvarSetattr s.dataSlot s.heap c k x
      (out.1, { s with dataSlot := out.2.1, heap := out.2.2.1 }, out.2.2.2)
    | .storeTLocal => (.ok (), { s with threads := tlSet s.threads t k x }, c)
    | _ => (.error (.MissingKey k), s, c)

/-- `Local.__delattr__` (local.py lines 111-113): always
`delattr(storage, key)` under `_lock_storage`, with no reserved-name
branch.  Returns (result, new state, new context value). -/
def Local.delattrOp (s : Local) (c : Ctx) (t : Nat) (k : String) :
    Except Err Unit × Local × Ctx :=
  match storageSlot s with
  | .storeCVar =>
    let out := cvarDelattr s.dataSlot s.heap c k
    (out.1, { s with dataSlot := out.2.1, heap := out.2.2.1 }, out.2.2.2)
  | .storeTLocal =>
    let out := tlDel s.threads t k
    (out.1, { s with threads := out.2 }, c)
  | _ => (.error (.MissingKey k), s, c)

/-- Result component of a set. -/
def setRes (s : Local) (c : Ctx) (t : Nat) (k : String) (x : Val) : Except Err Unit :=
  (Local.setattrOp s c t k x).1

/-- State after a set. -/
def setState (s : Local) (c : Ctx) (t : Nat) (k : String) (x : Val) : Local :=
  (Local.setattrOp s c t k x).2.1

/-- Context-variable value after a set. -/
def setCtx (s : Local) (c : Ctx) (t : Nat) (k : String) (x : Val) : Ctx :=
  (Local.setattrOp s c t k x).2.2

/-- Result component of a delete. -/
def delRes (s : Local) (c : Ctx) (t : Nat) (k : String) : Except Err Unit :=
  (Local.delattrOp s c t k).1

/-- State after a delete. -/
def delState (s : Local) (c : Ctx) (t : Nat) (k : String) : Local :=
  (Local.delattrOp s c t k).2.1

/-- Context-variable value after a delete. -/
def delCtx (s : Local) (c : Ctx) (t : Nat) (k : String) : Ctx :=
  (Local.delattrOp s c t k).2.2

/-- Lock events of one facade operation. -/
inductive LEv where
  | acq
  | touch
  | rel
deriving DecidableEq, Repr

/-- `Local._lock_storage` (local.py lines 87-99) as the lock events around
one storage access: in critical mode the storage is yielded with no lock;
otherwise the access runs inside `with self._thread_lock`, which releases
the lock on normal and on exceptional exit alike (context-manager
semantics), so the events do not depend on the body's outcome. -/
def lockStorageTrace (critical : Bool) (body : List LEv) : List LEv :=
  if critical then body else LEv.acq :: body ++ [LEv.rel]

/-- Lock events of a full attribute read: resolution from the instance
`__dict__` or the class never reaches `__getattr__`, hence never touches
the storage; otherwise the one storage access runs under `_lock_storage`. -/
def Local.getattrTrace (s : Local) (k : String) : List LEv :=
  match alLookup s.facade k with
  | some _ => []
  | none =>
    if k ∈ localClassAttrs then []
    else lockStorageTrace (isCritical s) [LEv.touch]

/-- Lock events of `Local.__setattr__`: the reserved branch returns before
`_lock_storage`; otherwise the storage access runs under it. -/
def Local.setattrTrace (s : Local) (k : String) : List LEv :=
  if k ∈ reservedNames then [] else lockStorageTrace (isCritical s) [LEv.touch]

/-- Lock events of `Local.__delattr__`: always one storage access under
`_lock_storage`, whatever the key. -/
def Local.delattrTrace (s : Local) (_k : String) : List LEv :=
  lockStorageTrace (isCritical s) [LEv.touch]

/-- The facade `__dict__` only ever holds reserved names (true of every
state reachable from `mkLocal`, since only the reserved branch writes it). -/
def facadeOnlyReserved (s : Local) : Bool :=
  s.facade.all fun kv => decide (kv.1 ∈ reservedNames)

/-- Well-formedness of a `Local` as constructed: facade holds reserved
slots only, and `_storage` is one of the two storage objects, with `_data`
still the `ContextVar` in the context-scoped case. -/
def localWF (s : Local) : Bool :=
  facadeOnlyReserved s &&
  match storageSlot s, s.dataSlot with
  | .storeCVar, .ctxvar => true
  | .storeTLocal, _ => true
  | _, _ => false

/-- The context value refers into the heap (true of every context value
produced by the operations). -/
def ctxOK (s : Local) (c : Ctx) : Bool :=
  match c with
  | none => true
  | some r => decide (r < s.heap.length)

/-- The mode of a `Local`: the truthiness of its `_thread_critical` slot
together with the storage object it wraps. -/
def modeOf (s : Local) : Bool × PyVal := (isCritical s, storageSlot s)

/-- Lookup in the scope mapping a non-reserved key would be served from:
the context's dict in context-scoped mode, this thread's dict otherwise. -/
def scopedLookup (s : Local) (c : Ctx) (t : Nat) (k : String) : Option Val :=
  match storageSlot s with
  | .storeTLocal => alLookup (tdictOf s.threads t) k
  | _ => alLookup (ctxDict s.heap c) k

/-! Concurrent increment system for the counter scenario: `N` OS threads
share one copied context binding `some r` on a non-critical `Local` and
each runs `get`-then-`set` increment cycles against one counter key.  Each
`get` and each `set` is one atomic (locked) facade operation; a scheduler
word decides the interleaving of these atomic operations. -/

/-- The counter key of the scenario. -/
def counterKey : String := "counter"

/-- Coerce the value read by the increment loop to an integer. -/
def readIntVal : Except Err PyVal → Int
  | .ok (.v (.vint n)) => n
  | _ => 0

/-- Program counter and register of one incrementing thread: `pend` is true
between its `get` and its `set`; `reg` is the value it read; `done` counts
its completed cycles. -/
structure CThread where
  pend : Bool
  reg : Int
  done : Nat
deriving DecidableEq, Repr

/-- The whole system: the shared `Local` plus the thread controls. -/
structure CSys where
  loc : Local
  thr : List CThread
deriving DecidableEq, Repr

/-- Thread control of thread `i`. -/
def thrGet : List CThread → Nat → Option CThread
  | [], _ => none
  | th :: _, 0 => some th
  | _ :: rest, i + 1 => thrGet rest i

/-- Replace the control of thread `i`. -/
def thrSet : List CThread → Nat → CThread → List CThread
  | [], _, _ => []
  | _ :: rest, 0, a => a :: rest
  | th :: rest, i + 1, a => th :: thrSet rest i a

/-- One scheduler step: thread `i` performs the next atomic half of its
current increment cycle, each half being one locked `Local` operation from
the shared binding `some r`. -/
def csysStep (r : Ref) (sys : CSys) (i : Nat) : CSys :=
  match thrGet sys.thr i with
  | none => sys
  | some th =>
    if th.pend then
      { loc := setState sys.loc (some r) i counterKey (.vint (th.reg + 1)),
        thr := thrSet sys.thr i { pend := false, reg := th.reg, done := th.done + 1 } }
    else
      { loc := sys.loc,
        thr := thrSet sys.thr i
          { pend := true,
            reg := readIntVal (Local.getattrOp sys.loc (some r) i counterKey),
            done := th.done } }

/-- Run a whole schedule. -/
def csysRun (r : Ref) (sys : CSys) (sched : List Nat) : CSys :=
  sched.foldl (csysStep r) sys

/-- The schedule in which every listed cycle runs without interleaving:
each thread's `get` is immediately followed by its `set`. -/
def serialSched : List Nat → List Nat
  | [] => []
  | i :: rest => i :: i :: serialSched rest

/-- Invariant of the increment system: well-formed non-critical shared
`Local`, the counter key bound to `cnt` in the shared dict `r`, and no
thread in the middle of a cycle. -/
def c8Inv (r : Ref) (cnt : Int) (sys : CSys) : Prop :=
  storageSlot sys.loc = PyVal.storeCVar ∧
  sys.loc.dataSlot = PyVal.ctxvar ∧
  alLookup sys.loc.facade counterKey = none ∧
  r < sys.loc.heap.length ∧
  alLookup (hGet sys.loc.heap r) counterKey = some (Val.vint cnt) ∧
  ∀ th ∈ sys.thr, th.pend = false

/-! Helper lemmas about the dict, heap, thread-table and thread-control
primitives. -/

theorem alLookup_alInsert_self {β : Type} (d : List (String × β)) (k : String) (x : β) :
    alLookup (alInsert d k x) k = some x := by
  induction d with
  | nil => simp [alInsert, alLookup]
  | cons kv rest ih =>
    obtain ⟨k1, x1⟩ := kv
    by_cases hk : k1 = k
    · simp [alInsert, alLookup, hk]
    · simp [alInsert, alLookup, hk, ih]

theorem alLookup_alInsert_ne {β : Type} (d : List (String × β)) (k k2 : String) (x : β)
    (h : k2 ≠ k) : alLookup (alInsert d k x) k2 = alLookup d k2 := by
  have h2 : k ≠ k2 := Ne.symm h
  induction d with
  | nil => simp [alInsert, alLookup, h2]
  | cons kv rest ih =>
    obtain ⟨k1, x1⟩ := kv
    by_cases hk : k1 = k
    · subst hk
      simp [alInsert, alLookup, h2]
    · by_cases hk2 : k1 = k2 <;> simp [alInsert, alLookup, hk, hk2, ih, h]

theorem alLookup_alErase_self {β : Type} (d : List (String × β)) (k : String)
    (h : alKeysNodup d = true) : alLookup (alErase d k) k = none := by
  induction d with
  | nil => simp [alErase, alLookup]
  | cons kv rest ih =>
    obtain ⟨k1, x1⟩ := kv
    simp only [alKeysNodup, Bool.and_eq_true, Option.isNone_iff_eq_none] at h
    by_cases hk : k1 = k
    · subst hk
      simpa [alErase] using h.1
    · simp [alErase, alLookup, hk, ih h.2]

theorem alLookup_alErase_ne {β : Type} (d : List (String × β)) (k k2 : String)
    (h : k2 ≠ k) : alLookup (alErase d k) k2 = alLookup d k2 := by
  induction d with
  | nil => simp [alErase]
  | cons kv rest ih =>
    obtain ⟨k1, x1⟩ := kv
    by_cases hk : k1 = k
    · subst hk
      simp [alErase, alLookup, Ne.symm h]
    · by_cases hk2 : k1 = k2 <;> simp [alErase, alLookup, hk, hk2, ih, h]

theorem hGet_hSet_self (h : Heap) (r : Nat) (d : Dict) (hr : r < h.length) :
    hGet (hSet h r d) r = d := by
  induction h generalizing r with
  | nil => simp at hr
  | cons d1 rest ih =>
    cases r with
    | zero => simp [hSet, hGet]
    | succ r =>
      simp only [List.length_cons, Nat.succ_lt_succ_iff] at hr
      simp [hSet, hGet, ih r hr]

theorem hGet_hSet_ne (h : Heap) (r r2 : Nat) (d : Dict) (hne : r2 ≠ r) :
    hGet (hSet h r d) r2 = hGet h r2 := by
  induction h generalizing r r2 with
  | nil => simp [hSet]
  | cons d1 rest ih =>
    cases r with
    | zero =>
      cases r2 with
      | zero => exact absurd rfl hne
      | succ r2 => simp [hSet, hGet]
    | succ r =>
      cases r2 with
      | zero => simp [hSet, hGet]
      | succ r2 =>
        simp only [hSet, hGet]
        exact ih r r2 (by omega)

theorem length_hSet (h : Heap) (r : Nat) (d : Dict) : (hSet h r d).length = h.length := by
  induction h generalizing r with
  | nil => simp [hSet]
  | cons d1 rest ih =>
    cases r with
    | zero => simp [hSet]
    | succ r => simp [hSet, ih r]

theorem hGet_append_left (h h2 : Heap) (r : Nat) (hr : r < h.length) :
    hGet (h ++ h2) r = hGet h r := by
  induction h generalizing r with
  | nil => simp at hr
  | cons d1 rest ih =>
    cases r with
    | zero => simp [hGet]
    | succ r =>
      simp only [List.length_cons, Nat.succ_lt_succ_iff] at hr
      simpa [hGet] using ih r hr

theorem hGet_append_self (h : Heap) (d : Dict) : hGet (h ++ [d]) h.length = d := by
  induction h with
  | nil => simp [hGet]
  | cons d1 rest ih => simpa [hGet] using ih

theorem tdictOf_tlPut_self (ts : TLStore) (t : Nat) (d : Dict) :
    tdictOf (tlPut ts t d) t = d := by
  induction ts with
  | nil => simp [tlPut, tdictOf]
  | cons td rest ih =>
    obtain ⟨t1, d1⟩ := td
    by_cases ht : t1 = t
    · simp [tlPut, tdictOf, ht]
    · simp [tlPut, tdictOf, ht, ih]

theorem tdictOf_tlPut_ne (ts : TLStore) (t t2 : Nat) (d : Dict) (h : t2 ≠ t) :
    tdictOf (tlPut ts t d) t2 = tdictOf ts t2 := by
  have h2 : t ≠ t2 := Ne.symm h
  induction ts with
  | nil => simp [tlPut, tdictOf, h2]
  | cons td rest ih =>
    obtain ⟨t1, d1⟩ := td
    by_cases ht : t1 = t
    · subst ht
      simp [tlPut, tdictOf, h2]
    · by_cases ht2 : t1 = t2 <;> simp [tlPut, tdictOf, ht, ht2, ih, h]

theorem alLookup_none_of_facadeOnlyReserved (s : Local) (k : String)
    (hf : facadeOnlyReserved s = true) (hk : k ∉ reservedNames) :
    alLookup s.facade k = none := by
  revert hf
  unfold facadeOnlyReserved
  induction s.facade with
  | nil => intro _; rfl
  | cons kv rest ih =>
    intro hf
    simp only [List.all_cons, Bool.and_eq_true, decide_eq_true_eq] at hf
    obtain ⟨k1, x1⟩ := kv
    have hne : k1 ≠ k := fun e => hk (e ▸ hf.1)
    simpa [alLookup, hne] using ih (by simpa using hf.2)

theorem thrGet_thrSet_self (l : List CThread) (i : Nat) (a : CThread)
    (hi : i < l.length) : thrGet (thrSet l i a) i = some a := by
  induction l generalizing i with
  | nil => simp at hi
  | cons th rest ih =>
    cases i with
    | zero => simp [thrSet, thrGet]
    | succ i =>
      simp only [List.length_cons, Nat.succ_lt_succ_iff] at hi
      simp [thrSet, thrGet, ih i hi]

theorem thrSet_thrSet_self (l : List CThread) (i : Nat) (a b : CThread) :
    thrSet (thrSet l i a) i b = thrSet l i b := by
  induction l generalizing i with
  | nil => simp [thrSet]
  | cons th rest ih =>
    cases i with
    | zero => simp [thrSet]
    | succ i => simp [thrSet, ih i]

theorem length_thrSet (l : List CThread) (i : Nat) (a : CThread) :
    (thrSet l i a).length = l.length := by
  induction l generalizing i with
  | nil => simp [thrSet]
  | cons th rest ih =>
    cases i with
    | zero => simp [thrSet]
    | succ i => simp [thrSet, ih i]

theorem mem_thrSet (l : List CThread) (i : Nat) (a th : CThread)
    (h : th ∈ thrSet l i a) : th ∈ l ∨ th = a := by
  induction l generalizing i with
  | nil => simp [thrSet] at h
  | cons th1 rest ih =>
    cases i with
    | zero =>
      simp only [thrSet, List.mem_cons] at h
      rcases h with h | h
      · exact Or.inr h
      · exact Or.inl (List.mem_cons_of_mem _ h)
    | succ i =>
      simp only [thrSet, List.mem_cons] at h
      rcases h with h | h
      · exact Or.inl (h ▸ List.mem_cons_self _ _)
      · rcases ih i h with h2 | h2
        · exact Or.inl (List.mem_cons_of_mem _ h2)
        · exact Or.inr h2

theorem thrGet_mem (l : List CThread) (i : Nat) (th : CThread)
    (h : thrGet l i = some th) : th ∈ l := by
  induction l generalizing i with
  | nil => simp [thrGet] at h
  | cons th1 rest ih =>
    cases i with
    | zero =>
      simp only [thrGet, Option.some_inj] at h
      exact h ▸ List.mem_cons_self _ _
    | succ i => exact List.mem_cons_of_mem _ (ih i h)

theorem thrGet_isSome (l : List CThread) (i : Nat) (hi : i < l.length) :
    ∃ th, thrGet l i = some th := by
  induction l generalizing i with
  | nil => simp at hi
  | cons th1 rest ih =>
    cases i with
    | zero => exact ⟨th1, rfl⟩
    | succ i =>
      simp only [List.length_cons, Nat.succ_lt_succ_iff] at hi
      exact ih i hi

/-! Reduction lemmas: the facade operations evaluated branch by branch. -/

theorem localWF_cases (s : Local) (h : localWF s = true) :
    facadeOnlyReserved s = true ∧
    ((storageSlot s = PyVal.storeCVar ∧ s.dataSlot = PyVal.ctxvar) ∨
      storageSlot s = PyVal.storeTLocal) := by
  unfold localWF at h
  rw [Bool.and_eq_true] at h
  refine ⟨h.1, ?_⟩
  have h2 := h.2
  cases hss : storageSlot s <;> rw [hss] at h2 <;>
    cases hds : s.dataSlot <;> rw [hds] at h2 <;> simp_all

theorem setattrOp_reserved (s : Local) (c : Ctx) (t : Nat) (k : String) (x : Val)
    (hres : k ∈ reservedNames) :
    Local.setattrOp s c t k x
      = (Except.ok (), { s with facade := alInsert s.facade k (PyVal.v x) }, c) := by
  unfold Local.setattrOp
  rw [if_pos hres]

theorem setattrOp_cvar_data (s : Local) (c : Ctx) (t : Nat) (x : Val)
    (hcv : storageSlot s = PyVal.storeCVar) :
    Local.setattrOp s c t "_data" x = (Except.ok (), { s with dataSlot := PyVal.v x }, c) := by
  unfold Local.setattrOp
  rw [if_neg (by decide : ¬ ("_data" ∈ reservedNames)), hcv]
  simp [cvarSetattr]

theorem setattrOp_cvar_some (s : Local) (t : Nat) (r : Nat) (k : String) (x : Val)
    (hcv : storageSlot s = PyVal.storeCVar) (hds : s.dataSlot = PyVal.ctxvar)
    (hres : k ∉ reservedNames) (hd : k ≠ "_data") :
    Local.setattrOp s (some r) t k x
      = (Except.ok (),
         { s with dataSlot := PyVal.ctxvar,
                  heap := hSet s.heap r (alInsert (hGet s.heap r) k x) },
         some r) := by
  unfold Local.setattrOp
  rw [if_neg hres, hcv]
  simp [cvarSetattr, hd, hds]

theorem setattrOp_cvar_none (s : Local) (t : Nat) (k : String) (x : Val)
    (hcv : storageSlot s = PyVal.storeCVar) (hds : s.dataSlot = PyVal.ctxvar)
    (hres : k ∉ reservedNames) (hd : k ≠ "_data") :
    Local.setattrOp s none t k x
      = (Except.ok (),
         { s with dataSlot := PyVal.ctxvar, heap := s.heap ++ [alInsert [] k x] },
         some s.heap.length) := by
  unfold Local.setattrOp
  rw [if_neg hres, hcv]
  simp [cvarSetattr, hd, hds]

theorem setattrOp_tlocal (s : Local) (c : Ctx) (t : Nat) (k : String) (x : Val)
    (htl : storageSlot s = PyVal.storeTLocal) (hres : k ∉ reservedNames) :
    Local.setattrOp s c t k x
      = (Except.ok (), { s with threads := tlSet s.threads t k x }, c) := by
  unfold Local.setattrOp
  rw [if_neg hres, htl]

theorem getattrOp_facade (s : Local) (c : Ctx) (t : Nat) (k : String) (pv : PyVal)
    (hfac : alLookup s.facade k = some pv) :
    Local.getattrOp s c t k = Except.ok pv := by
  unfold Local.getattrOp
  rw [hfac]

theorem getattrOp_data (s : Local) (c : Ctx) (t : Nat)
    (hfac : alLookup s.facade "_data" = none) (hcv : storageSlot s = PyVal.storeCVar) :
    Local.getattrOp s c t "_data" = Except.ok s.dataSlot := by
  unfold Local.getattrOp
  rw [hfac, if_neg (by decide : ¬ ("_data" ∈ localClassAttrs)), hcv]
  simp [cvarGetattr]

theorem getattrOp_cvar_found (s : Local) (c : Ctx) (t : Nat) (k : String) (x : Val)
    (hfac : alLookup s.facade k = none) (hcls : k ∉ localClassAttrs)
    (hcv : storageSlot s = PyVal.storeCVar) (hds : s.dataSlot = PyVal.ctxvar)
    (hd : k ≠ "_data") (hx : alLookup (ctxDict s.heap c) k = some x) :
    Local.getattrOp s c t k = Except.ok (PyVal.v x) := by
  unfold Local.getattrOp
  rw [hfac, if_neg hcls, hcv]
  simp [cvarGetattr, hd, hds, hx]

theorem getattrOp_cvar_missing (s : Local) (c : Ctx) (t : Nat) (k : String)
    (hfac : alLookup s.facade k = none) (hcls : k ∉ localClassAttrs)
    (hcv : storageSlot s = PyVal.storeCVar) (hds : s.dataSlot = PyVal.ctxvar)
    (hd : k ≠ "_data") (hx : alLookup (ctxDict s.heap c) k = none) :
    Local.getattrOp s c t k = Except.error (Err.MissingKey k) := by
  unfold Local.getattrOp
  rw [hfac, if_neg hcls, hcv]
  simp [cvarGetattr, hd, hds, hx]

theorem getattrOp_tlocal (s : Local) (c : Ctx) (t : Nat) (k : String)
    (hfac : alLookup s.facade k = none) (hcls : k ∉ localClassAttrs)
    (htl : storageSlot s = PyVal.storeTLocal) :
    Local.getattrOp s c t k = (tlGet s.threads t k).map PyVal.v := by
  unfold Local.getattrOp
  rw [hfac, if_neg hcls, htl]

theorem cvarDelattr_error (dslot : PyVal) (h : Heap) (c : Ctx) (k : String) (e : Err)
    (he : (cvarDelattr dslot h c k).1 = Except.error e) :
    cvarDelattr dslot h c k = (Except.error e, dslot, h, c) := by
  unfold cvarDelattr at he ⊢
  cases dslot
  case ctxvar =>
    cases c with
    | none => simp_all
    | some r =>
      by_cases hk : (alLookup (hGet h r) k).isSome = true <;> simp_all
  all_goals simp_all

/-! The claims. -/

/-- C5: every get, set and delete on a non-critical `Local` only touches the
shared store between acquiring and releasing the instance lock, the release
happens on every exit path (the lock events of an operation do not depend
on its outcome, in particular a get that fails with MissingKey still shows
the full acquire-touch-release bracket), and in critical mode no operation
ever acquires the lock.  Operations resolved without reaching the storage
(instance-dict or class-attribute hits, reserved-name sets) produce no lock
events and no store touch at all. -/
theorem C5_lock_discipline (s : Local) (c : Ctx) (t : Nat) (k : String) :
    (isCritical s = false →
      (Local.getattrTrace s k = [] ∨
        Local.getattrTrace s k = [LEv.acq, LEv.touch, LEv.rel]) ∧
      (Local.setattrTrace s k = [] ∨
        Local.setattrTrace s k = [LEv.acq, LEv.touch, LEv.rel]) ∧
      Local.delattrTrace s k = [LEv.acq, LEv.touch, LEv.rel] ∧
      (∀ e, Local.getattrOp s c t k = Except.error e →
        Local.getattrTrace s k = [LEv.acq, LEv.touch, LEv.rel])) ∧
    (isCritical s = true →
      LEv.acq ∉ Local.getattrTrace s k ∧ LEv.rel ∉ Local.getattrTrace s k ∧
      LEv.acq ∉ Local.setattrTrace s k ∧ LEv.rel ∉ Local.setattrTrace s k ∧
      LEv.acq ∉ Local.delattrTrace s k ∧ LEv.rel ∉ Local.delattrTrace s k) := by
  constructor
  · intro hc
    refine ⟨?_, ?_, ?_, ?_⟩
    · unfold Local.getattrTrace
      cases alLookup s.facade k with
      | some pv => simp
      | none => by_cases hcls : k ∈ localClassAttrs <;> simp [hcls, lockStorageTrace, hc]
    · unfold Local.setattrTrace
      by_cases hres : k ∈ reservedNames <;> simp [hres, lockStorageTrace, hc]
    · simp [Local.delattrTrace, lockStorageTrace, hc]
    · intro e he
      unfold Local.getattrOp at he
      unfold Local.getattrTrace
      cases hfac : alLookup s.facade k with
      | some pv => rw [hfac] at he; simp at he
      | none =>
        rw [hfac] at he
        by_cases hcls : k ∈ localClassAttrs
        · rw [if_pos hcls] at he; simp at he
        · simp [hcls, lockStorageTrace, hc]
  · intro hc
    refine ⟨?_, ?_, ?_, ?_, ?_, ?_⟩
    · unfold Local.getattrTrace
      cases alLookup s.facade k with
      | some pv => simp
      | none => by_cases hcls : k ∈ localClassAttrs <;> simp [hcls, lockStorageTrace, hc]
    · unfold Local.getattrTrace
      cases alLookup s.facade k with
      | some pv => simp
      | none => by_cases hcls : k ∈ localClassAttrs <;> simp [hcls, lockStorageTrace, hc]
    · unfold Local.setattrTrace
      by_cases hres : k ∈ reservedNames <;> simp [hres, lockStorageTrace, hc]
    · unfold Local.setattrTrace
      by_cases hres : k ∈ reservedNames <;> simp [hres, lockStorageTrace, hc]
    · simp [Local.delattrTrace, lockStorageTrace, hc]
    · simp [Local.delattrTrace, lockStorageTrace, hc]

/-- C5 witness: on a concrete non-critical instance a delete shows the full
acquire-touch-release bracket; on a concrete critical instance a delete
never acquires. -/
theorem C5_witness :
    Local.delattrTrace (mkLocal false) "x" = [LEv.acq, LEv.touch, LEv.rel] ∧
    LEv.acq ∉ Local.delattrTrace (mkLocal true) "x" :=
  ⟨((C5_lock_discipline (mkLocal false) none 0 "x").1 (by decide)).2.2.1,
   ((C5_lock_discipline (mkLocal true) none 0 "x").2 (by decide)).2.2.2.2.1⟩

/-- C6 counterexample: a single public-surface set of the key
`_thread_critical` on a freshly constructed non-critical instance lands on
the facade and flips the mode out of the one chosen at construction,
contradicting the claim that no sequence of get/set/delete through the
public accessor surface can change the mode. -/
theorem C6_counterexample :
    modeOf (setState (mkLocal false) none 0 "_thread_critical" (Val.vbool true))
      ≠ modeOf (mkLocal false) ∧
    isCritical (setState (mkLocal false) none 0 "_thread_critical" (Val.vbool true)) = true ∧
    isCritical (mkLocal false) = false := by decide

/-- C6 amended: for every key outside the reserved facade names, no set and
no delete changes the instance dict of the facade, hence neither the
`_thread_critical` flag nor the kind of store wrapped (gets never mutate
state at all by construction); only a set of one of the four reserved names
can transition the mode. -/
theorem C6_mode_fixed (s : Local) (c : Ctx) (t : Nat) (k : String) (x : Val)
    (hk : k ∉ reservedNames) :
    (setState s c t k x).facade = s.facade ∧
    modeOf (setState s c t k x) = modeOf s ∧
    (delState s c t k).facade = s.facade ∧
    modeOf (delState s c t k) = modeOf s := by
  have hset : (setState s c t k x).facade = s.facade := by
    unfold setState Local.setattrOp
    rw [if_neg hk]
    cases hss : storageSlot s <;> simp
  have hdel : (delState s c t k).facade = s.facade := by
    unfold delState Local.delattrOp
    cases hss : storageSlot s <;> simp
  refine ⟨hset, ?_, hdel, ?_⟩ <;> simp [modeOf, isCritical, storageSlot, hset, hdel]

/-- C6 witness: a concrete non-reserved set and delete leave the facade and
the mode of a fresh non-critical instance unchanged. -/
theorem C6_witness :
    (setState (mkLocal false) none 0 "x" (Val.vint 1)).facade = (mkLocal false).facade ∧
    modeOf (setState (mkLocal false) none 0 "x" (Val.vint 1)) = modeOf (mkLocal false) ∧
    (delState (mkLocal false) none 0 "x").facade = (mkLocal false).facade ∧
    modeOf (delState (mkLocal false) none 0 "x") = modeOf (mkLocal false) :=
  C6_mode_fixed (mkLocal false) none 0 "x" (Val.vint 1) (by decide)

/-- C7 counterexample: the store set operation applied to the key `_data`
stores the value on the `_CVar` object itself (line 23-24 of local.py):
the context mapping does not receive the binding and the context variable
is not written, so the claim that set inserts `k`, `v` into the mapping and
writes the mapping back does not hold for this key. -/
theorem C7_counterexample :
    cvarSetattr PyVal.ctxvar [[("x", Val.vint 1)]] (some 0) "_data" (Val.vint 5)
      = (Except.ok (), PyVal.v (Val.vint 5), [[("x", Val.vint 1)]], some 0) ∧
    ¬ alLookup
        (hGet (cvarSetattr PyVal.ctxvar [[("x", Val.vint 1)]] (some 0) "_data"
            (Val.vint 5)).2.2.1 0)
        "_data" = some (Val.vint 5) := by decide

/-- C7 amended: for every key other than the internal slot name `_data`,
the context-scoped store's set reads the current mapping, writes exactly
the one binding `k` to `v` into it (in place if the context already holds a
mapping object, into the fresh empty mapping otherwise), leaves every other
binding and every other mapping object unchanged, and writes the same
mapping object back into the context variable; delete likewise removes only
`k` and writes the same object back. -/
theorem C7_cvar_frame (h : Heap) (r : Nat) (k k2 : String) (x : Val)
    (hr : r < h.length) (hd : k ≠ "_data") (hk2 : k2 ≠ k)
    (hnd : alKeysNodup (hGet h r) = true) :
    cvarSetattr PyVal.ctxvar h (some r) k x
      = (Except.ok (), PyVal.ctxvar, hSet h r (alInsert (hGet h r) k x), some r) ∧
    alLookup (hGet (hSet h r (alInsert (hGet h r) k x)) r) k = some x ∧
    alLookup (hGet (hSet h r (alInsert (hGet h r) k x)) r) k2 = alLookup (hGet h r) k2 ∧
    (∀ r2, r2 ≠ r → hGet (hSet h r (alInsert (hGet h r) k x)) r2 = hGet h r2) ∧
    cvarSetattr PyVal.ctxvar h none k x
      = (Except.ok (), PyVal.ctxvar, h ++ [alInsert [] k x], some h.length) ∧
    ((alLookup (hGet h r) k).isSome = true →
      cvarDelattr PyVal.ctxvar h (some r) k
        = (Except.ok (), PyVal.ctxvar, hSet h r (alErase (hGet h r) k), some r) ∧
      alLookup (hGet (hSet h r (alErase (hGet h r) k)) r) k = none ∧
      alLookup (hGet (hSet h r (alErase (hGet h r) k)) r) k2 = alLookup (hGet h r) k2 ∧
      (∀ r2, r2 ≠ r → hGet (hSet h r (alErase (hGet h r) k)) r2 = hGet h r2)) := by
  refine ⟨?_, ?_, ?_, ?_, ?_, ?_⟩
  · simp [cvarSetattr, hd]
  · rw [hGet_hSet_self _ _ _ hr, alLookup_alInsert_self]
  · rw [hGet_hSet_self _ _ _ hr, alLookup_alInsert_ne _ _ _ _ hk2]
  · intro r2 hne
    exact hGet_hSet_ne _ _ _ _ hne
  · simp [cvarSetattr, hd]
  · intro hfound
    refine ⟨?_, ?_, ?_, ?_⟩
    · simp [cvarDelattr, hfound]
    · rw [hGet_hSet_self _ _ _ hr, alLookup_alErase_self _ _ hnd]
    · rw [hGet_hSet_self _ _ _ hr, alLookup_alErase_ne _ _ _ hk2]
    · intro r2 hne
      exact hGet_hSet_ne _ _ _ _ hne

/-- C7 witness: on a concrete two-entry mapping, set overwrites only `a`
and delete removes only `a`. -/
theorem C7_witness :
    alLookup (hGet (hSet [[("a", Val.vint 1), ("b", Val.vint 2)]] 0
        (alInsert (hGet [[("a", Val.vint 1), ("b", Val.vint 2)]] 0) "a" (Val.vint 9))) 0)
      "a" = some (Val.vint 9) ∧
    alLookup (hGet (hSet [[("a", Val.vint 1), ("b", Val.vint 2)]] 0
        (alErase (hGet [[("a", Val.vint 1), ("b", Val.vint 2)]] 0) "a")) 0) "a" = none := by
  have hmain := C7_cvar_frame [[("a", Val.vint 1), ("b", Val.vint 2)]] 0 "a" "b" (Val.vint 9)
    (by decide) (by decide) (by decide) (by decide)
  exact ⟨hmain.2.1, (hmain.2.2.2.2.2 (by decide)).2.1⟩

/-- C10: in context-scoped mode, a delete that fails leaves the state
untouched: the facade, the `_data` slot, every mapping object in the heap,
and the context-variable binding are exactly what they were before the
failed call — the context variable is not re-assigned. -/
theorem C10_failed_delete_frame (s : Local) (c : Ctx) (t : Nat) (k : String) (e : Err)
    (hcv : storageSlot s = PyVal.storeCVar) (he : delRes s c t k = Except.error e) :
    delState s c t k = s ∧ delCtx s c t k = c := by
  have he2 : (cvarDelattr s.dataSlot s.heap c k).1 = Except.error e := by
    unfold delRes Local.delattrOp at he
    rw [hcv] at he
    exact he
  have herr := cvarDelattr_error s.dataSlot s.heap c k e he2
  constructor
  · unfold delState Local.delattrOp
    rw [hcv, herr]
  · unfold delCtx Local.delattrOp
    rw [hcv, herr]

/-- C10 witness: deleting a never-bound key on a fresh non-critical
instance fails and changes nothing. -/
theorem C10_witness :
    delState (mkLocal false) none 0 "missing" = mkLocal false ∧
    delCtx (mkLocal false) none 0 "missing" = none :=
  C10_failed_delete_frame (mkLocal false) none 0 "missing" (Err.MissingKey "missing")
    (by decide) (by decide)

/-- C1 counterexample: for the key `_lock_storage`, which names a method of
`class Local`, a set followed by a get in the very same scope does not
return the value: the set lands in the scoped mapping, but the read finds
the bound method on the class before `__getattr__` ever fires, so the claim
fails for this key (in either mode). -/
theorem C1_counterexample :
    setRes (mkLocal false) none 0 "_lock_storage" (Val.vint 5) = Except.ok () ∧
    Local.getattrOp (setState (mkLocal false) none 0 "_lock_storage" (Val.vint 5))
        (setCtx (mkLocal false) none 0 "_lock_storage" (Val.vint 5)) 0 "_lock_storage"
      = Except.ok PyVal.method ∧
    ¬ Local.getattrOp (setState (mkLocal false) none 0 "_lock_storage" (Val.vint 5))
        (setCtx (mkLocal false) none 0 "_lock_storage" (Val.vint 5)) 0 "_lock_storage"
      = Except.ok (PyVal.v (Val.vint 5)) := by decide

/-- C1 amended: for every key that does not name an attribute defined by
`class Local` itself, in either mode, a set immediately followed by a get
in the same scope (same context value, same thread) returns exactly the
value that was set.  This includes the reserved facade names and `_data`,
which are served from the object slots they were stored in. -/
theorem C1_set_then_get (s : Local) (c : Ctx) (t : Nat) (k : String) (x : Val)
    (hwf : localWF s = true) (hc : ctxOK s c = true) (hk : k ∉ localClassAttrs) :
    setRes s c t k x = Except.ok () ∧
    Local.getattrOp (setState s c t k x) (setCtx s c t k x) t k = Except.ok (PyVal.v x) := by
  obtain ⟨hfac, hst⟩ := localWF_cases s hwf
  by_cases hres : k ∈ reservedNames
  · have hred := setattrOp_reserved s c t k x hres
    constructor
    · unfold setRes
      rw [hred]
    · unfold setState setCtx
      rw [hred]
      exact getattrOp_facade _ _ _ _ _ (alLookup_alInsert_self _ _ _)
  · have hfacnone : alLookup s.facade k = none :=
      alLookup_none_of_facadeOnlyReserved s k hfac hres
    rcases hst with ⟨hcv, hds⟩ | htl
    · by_cases hd : k = "_data"
      · subst hd
        have hred := setattrOp_cvar_data s c t x hcv
        constructor
        · unfold setRes
          rw [hred]
        · unfold setState setCtx
          rw [hred]
          exact getattrOp_data _ _ _ hfacnone hcv
      · cases c with
        | some r =>
          have hr : r < s.heap.length := by simpa [ctxOK] using hc
          have hred := setattrOp_cvar_some s t r k x hcv hds hres hd
          constructor
          · unfold setRes
            rw [hred]
          · unfold setState setCtx
            rw [hred]
            refine getattrOp_cvar_found _ _ t k x ?_ hk ?_ rfl hd ?_
            · exact hfacnone
            · exact hcv
            · show alLookup (hGet (hSet s.heap r (alInsert (hGet s.heap r) k x)) r) k = some x
              rw [hGet_hSet_self _ _ _ hr, alLookup_alInsert_self]
        | none =>
          have hred := setattrOp_cvar_none s t k x hcv hds hres hd
          constructor
          · unfold setRes
            rw [hred]
          · unfold setState setCtx
            rw [hred]
            refine getattrOp_cvar_found _ _ t k x ?_ hk ?_ rfl hd ?_
            · exact hfacnone
            · exact hcv
            · show alLookup (hGet (s.heap ++ [alInsert [] k x]) s.heap.length) k = some x
              rw [hGet_append_self, alLookup_alInsert_self]
    · have hred := setattrOp_tlocal s c t k x htl hres
      constructor
      · unfold setRes
        rw [hred]
      · unfold setState setCtx
        rw [hred]
        show Local.getattrOp { s with threads := tlSet s.threads t k x } c t k
          = Except.ok (PyVal.v x)
        rw [getattrOp_tlocal { s with threads := tlSet s.threads t k x } c t k
          hfacnone hk htl]
        unfold tlGet tlSet
        rw [tdictOf_tlPut_self, alLookup_alInsert_self]
        rfl

/-- C1 witness: concrete set-then-get in both modes returns the value. -/
theorem C1_witness :
    (setRes (mkLocal false) none 0 "x" (Val.vint 5) = Except.ok () ∧
      Local.getattrOp (setState (mkLocal false) none 0 "x" (Val.vint 5))
        (setCtx (mkLocal false) none 0 "x" (Val.vint 5)) 0 "x"
        = Except.ok (PyVal.v (Val.vint 5))) ∧
    (setRes (mkLocal true) none 3 "x" (Val.vint 7) = Except.ok () ∧
      Local.getattrOp (setState (mkLocal true) none 3 "x" (Val.vint 7))
        (setCtx (mkLocal true) none 3 "x" (Val.vint 7)) 3 "x"
        = Except.ok (PyVal.v (Val.vint 7))) :=
  ⟨C1_set_then_get (mkLocal false) none 0 "x" (Val.vint 5) (by decide) (by decide) (by decide),
   C1_set_then_get (mkLocal true) none 3 "x" (Val.vint 7) (by decide) (by decide) (by decide)⟩

/-- C2 counterexample: the key `_thread_critical` has no binding in the
scoped mapping of a freshly constructed non-critical instance (no set was
ever performed), yet a get does not fail with MissingKey: it returns the
construction flag from the instance dict, so the claim does not hold for
every key. -/
theorem C2_counterexample :
    scopedLookup (mkLocal false) none 0 "_thread_critical" = none ∧
    Local.getattrOp (mkLocal false) none 0 "_thread_critical"
      = Except.ok (PyVal.v (Val.vbool false)) ∧
    ¬ Local.getattrOp (mkLocal false) none 0 "_thread_critical"
      = Except.error (Err.MissingKey "_thread_critical") := by decide

/-- C2 amended: for every key outside the reserved facade names, the class
attribute names and the internal slot name `_data`, if the key has no
binding in the applicable scope mapping then both get and delete fail with
MissingKey, uniformly in both modes; and MissingKey is the only error kind
this code can produce. -/
theorem C2_missing_key (s : Local) (c : Ctx) (t : Nat) (k : String)
    (hwf : localWF s = true) (hres : k ∉ reservedNames) (hcls : k ∉ localClassAttrs)
    (hd : k ≠ "_data") (hmiss : scopedLookup s c t k = none) :
    Local.getattrOp s c t k = Except.error (Err.MissingKey k) ∧
    delRes s c t k = Except.error (Err.MissingKey k) ∧
    (∀ e : Err, ∃ key, e = Err.MissingKey key) := by
  obtain ⟨hfac, hst⟩ := localWF_cases s hwf
  have hfacnone : alLookup s.facade k = none :=
    alLookup_none_of_facadeOnlyReserved s k hfac hres
  refine ⟨?_, ?_, ?_⟩
  · rcases hst with ⟨hcv, hds⟩ | htl
    · have hmiss2 : alLookup (ctxDict s.heap c) k = none := by
        unfold scopedLookup at hmiss
        rw [hcv] at hmiss
        exact hmiss
      exact getattrOp_cvar_missing s c t k hfacnone hcls hcv hds hd hmiss2
    · have hmiss2 : alLookup (tdictOf s.threads t) k = none := by
        unfold scopedLookup at hmiss
        rw [htl] at hmiss
        exact hmiss
      rw [getattrOp_tlocal s c t k hfacnone hcls htl]
      unfold tlGet
      rw [hmiss2]
      rfl
  · rcases hst with ⟨hcv, hds⟩ | htl
    · have hmiss2 : alLookup (ctxDict s.heap c) k = none := by
        unfold scopedLookup at hmiss
        rw [hcv] at hmiss
        exact hmiss
      unfold delRes Local.delattrOp
      rw [hcv]
      show (cvarDelattr s.dataSlot s.heap c k).1 = Except.error (Err.MissingKey k)
      rw [hds]
      unfold cvarDelattr
      cases c with
      | none => rfl
      | some r =>
        have hr2 : alLookup (hGet s.heap r) k = none := hmiss2
        simp [hr2]
    · have hmiss2 : alLookup (tdictOf s.threads t) k = none := by
        unfold scopedLookup at hmiss
        rw [htl] at hmiss
        exact hmiss
      unfold delRes Local.delattrOp
      rw [htl]
      show (tlDel s.threads t k).1 = Except.error (Err.MissingKey k)
      unfold tlDel
      rw [hmiss2]
      rfl
  · intro e
    cases e with
    | MissingKey key => exact ⟨key, rfl⟩

/-- C2 witness: on a fresh non-critical instance, get and delete of an
unbound ordinary key both fail with MissingKey. -/
theorem C2_witness :
    Local.getattrOp (mkLocal false) none 0 "y" = Except.error (Err.MissingKey "y") ∧
    delRes (mkLocal false) none 0 "y" = Except.error (Err.MissingKey "y") ∧
    (∀ e : Err, ∃ key, e = Err.MissingKey key) :=
  C2_missing_key (mkLocal false) none 0 "y" (by decide) (by decide) (by decide)
    (by decide) (by decide)

/-- C3 counterexample: a parent context sets `x` to 0 and two sibling
contexts are forked from it (each copy holds the same dict object, ref 0).
Sibling one sets `x` to 1, sibling two sets `x` to 2 — both mutate the one
shared dict in place — and sibling one then reads 2, the binding written by
its sibling, so the claim that two unrelated contexts never observe each
other's bindings and keep independent values is false. -/
theorem C3_counterexample :
    Local.getattrOp
        (setState
          (setState (setState (mkLocal false) none 0 "x" (Val.vint 0))
            (copyContext (setCtx (mkLocal false) none 0 "x" (Val.vint 0))) 0 "x" (Val.vint 1))
          (copyContext (setCtx (mkLocal false) none 0 "x" (Val.vint 0))) 1 "x" (Val.vint 2))
        (setCtx
          (setState (mkLocal false) none 0 "x" (Val.vint 0))
          (copyContext (setCtx (mkLocal false) none 0 "x" (Val.vint 0))) 0 "x" (Val.vint 1))
        0 "x"
      = Except.ok (PyVal.v (Val.vint 2)) ∧
    ¬ Local.getattrOp
        (setState
          (setState (setState (mkLocal false) none 0 "x" (Val.vint 0))
            (copyContext (setCtx (mkLocal false) none 0 "x" (Val.vint 0))) 0 "x" (Val.vint 1))
          (copyContext (setCtx (mkLocal false) none 0 "x" (Val.vint 0))) 1 "x" (Val.vint 2))
        (setCtx
          (setState (mkLocal false) none 0 "x" (Val.vint 0))
          (copyContext (setCtx (mkLocal false) none 0 "x" (Val.vint 0))) 0 "x" (Val.vint 1))
        0 "x"
      = Except.ok (PyVal.v (Val.vint 1)) := by decide

/-- C3 amended: sibling contexts whose bindings do not refer to one shared
mapping object are isolated.  Concretely, two contexts forked from a parent
in which the context variable was never set (both start with the variable
unset): when each performs its own set of the same ordinary key, each set
allocates a distinct fresh mapping, the two resulting bindings are distinct
objects, and each context subsequently reads back exactly its own value.
(When the forked copies share one mapping object — the parent had already
performed a set — the in-place mutation of one sibling is observable by the
other, as the counterexample shows.) -/
theorem C3_fresh_siblings (s : Local) (t1 t2 : Nat) (k : String) (v1 v2 : Val)
    (hwf : localWF s = true) (hcv : storageSlot s = PyVal.storeCVar)
    (hres : k ∉ reservedNames) (hcls : k ∉ localClassAttrs) (hd : k ≠ "_data") :
    setCtx s none t1 k v1 ≠ setCtx (setState s none t1 k v1) none t2 k v2 ∧
    Local.getattrOp (setState (setState s none t1 k v1) none t2 k v2)
      (setCtx s none t1 k v1) t1 k = Except.ok (PyVal.v v1) ∧
    Local.getattrOp (setState (setState s none t1 k v1) none t2 k v2)
      (setCtx (setState s none t1 k v1) none t2 k v2) t2 k = Except.ok (PyVal.v v2) := by
  obtain ⟨hfac, hst⟩ := localWF_cases s hwf
  have hds : s.dataSlot = PyVal.ctxvar := by
    rcases hst with ⟨_, hds⟩ | htl
    · exact hds
    · rw [hcv] at htl
      cases htl
  have hfacnone : alLookup s.facade k = none :=
    alLookup_none_of_facadeOnlyReserved s k hfac hres
  have h1 := setattrOp_cvar_none s t1 k v1 hcv hds hres hd
  have hs1 : setState s none t1 k v1
      = { s with dataSlot := PyVal.ctxvar, heap := s.heap ++ [alInsert [] k v1] } := by
    unfold setState
    rw [h1]
  have hc1 : setCtx s none t1 k v1 = some s.heap.length := by
    unfold setCtx
    rw [h1]
  have h2 := setattrOp_cvar_none
    { s with dataSlot := PyVal.ctxvar, heap := s.heap ++ [alInsert [] k v1] }
    t2 k v2 hcv rfl hres hd
  have hs2 : setState (setState s none t1 k v1) none t2 k v2
      = { s with dataSlot := PyVal.ctxvar,
                 heap := (s.heap ++ [alInsert [] k v1]) ++ [alInsert [] k v2] } := by
    rw [hs1]
    unfold setState
    rw [h2]
  have hc2 : setCtx (setState s none t1 k v1) none t2 k v2
      = some (s.heap ++ [alInsert [] k v1]).length := by
    rw [hs1]
    unfold setCtx
    rw [h2]
  refine ⟨?_, ?_, ?_⟩
  · rw [hc1, hc2]
    simp
  · rw [hs2, hc1]
    refine getattrOp_cvar_found _ _ t1 k v1 ?_ hcls ?_ rfl hd ?_
    · exact hfacnone
    · exact hcv
    · show alLookup
          (hGet ((s.heap ++ [alInsert [] k v1]) ++ [alInsert [] k v2]) s.heap.length) k
        = some v1
      rw [hGet_append_left _ _ _ (by simp), hGet_append_self, alLookup_alInsert_self]
  · rw [hs2, hc2]
    refine getattrOp_cvar_found _ _ t2 k v2 ?_ hcls ?_ rfl hd ?_
    · exact hfacnone
    · exact hcv
    · show alLookup
          (hGet ((s.heap ++ [alInsert [] k v1]) ++ [alInsert [] k v2])
            (s.heap ++ [alInsert [] k v1]).length) k = some v2
      rw [hGet_append_self, alLookup_alInsert_self]

/-- C3 witness: two sibling contexts forked from a fresh parent each set
`x` on a fresh non-critical instance and each reads back its own value,
through two distinct mapping objects. -/
theorem C3_witness :
    setCtx (mkLocal false) none 0 "x" (Val.vint 1)
      ≠ setCtx (setState (mkLocal false) none 0 "x" (Val.vint 1)) none 1 "x" (Val.vint 2) ∧
    Local.getattrOp
        (setState (setState (mkLocal false) none 0 "x" (Val.vint 1)) none 1 "x" (Val.vint 2))
        (setCtx (mkLocal false) none 0 "x" (Val.vint 1)) 0 "x"
      = Except.ok (PyVal.v (Val.vint 1)) ∧
    Local.getattrOp
        (setState (setState (mkLocal false) none 0 "x" (Val.vint 1)) none 1 "x" (Val.vint 2))
        (setCtx (setState (mkLocal false) none 0 "x" (Val.vint 1)) none 1 "x" (Val.vint 2))
        1 "x"
      = Except.ok (PyVal.v (Val.vint 2)) :=
  C3_fresh_siblings (mkLocal false) 0 1 "x" (Val.vint 1) (Val.vint 2)
    (by decide) (by decide) (by decide) (by decide) (by decide)

/-- C4 counterexample: in critical mode the reserved key `_local` is stored
on the facade by a set from thread 0 and is then read back by thread 1 (a
distinct thread that never bound it, here even inheriting the writer's
context value), instead of failing with MissingKey, so the claim does not
hold for every key. -/
theorem C4_counterexample :
    Local.getattrOp (setState (mkLocal true) none 0 "_local" (Val.vint 7))
        (copyContext none) 1 "_local" = Except.ok (PyVal.v (Val.vint 7)) ∧
    ¬ Local.getattrOp (setState (mkLocal true) none 0 "_local" (Val.vint 7))
        (copyContext none) 1 "_local" = Except.error (Err.MissingKey "_local") := by decide

/-- C4 amended: in critical mode, for every key outside the reserved facade
names and the class attribute names, a set performed by thread `ta` is
invisible to any distinct thread `tb`: the reader's view is completely
unchanged, whatever context value either thread runs under (including the
writer's own context value carried over by the bridging utility), and the
reader's get fails with MissingKey whenever `tb` has not bound the key
itself. -/
theorem C4_thread_isolation (s : Local) (ca cb : Ctx) (ta tb : Nat) (k : String) (x : Val)
    (hwf : localWF s = true) (htl : storageSlot s = PyVal.storeTLocal)
    (hab : ta ≠ tb) (hres : k ∉ reservedNames) (hcls : k ∉ localClassAttrs)
    (hb : alLookup (tdictOf s.threads tb) k = none) :
    Local.getattrOp (setState s ca ta k x) cb tb k = Local.getattrOp s cb tb k ∧
    Local.getattrOp (setState s ca ta k x) cb tb k = Except.error (Err.MissingKey k) := by
  obtain ⟨hfac, _⟩ := localWF_cases s hwf
  have hfacnone : alLookup s.facade k = none :=
    alLookup_none_of_facadeOnlyReserved s k hfac hres
  have hred := setattrOp_tlocal s ca ta k x htl hres
  have hs1 : setState s ca ta k x = { s with threads := tlSet s.threads ta k x } := by
    unfold setState
    rw [hred]
  rw [hs1]
  have hga : Local.getattrOp { s with threads := tlSet s.threads ta k x } cb tb k
      = (tlGet (tlSet s.threads ta k x) tb k).map PyVal.v :=
    getattrOp_tlocal _ cb tb k hfacnone hcls htl
  have hgb : Local.getattrOp s cb tb k = (tlGet s.threads tb k).map PyVal.v :=
    getattrOp_tlocal s cb tb k hfacnone hcls htl
  have hsame : tlGet (tlSet s.threads ta k x) tb k = tlGet s.threads tb k := by
    unfold tlGet tlSet
    rw [tdictOf_tlPut_ne _ _ _ _ (Ne.symm hab)]
  constructor
  · rw [hga, hgb, hsame]
  · rw [hga, hsame]
    unfold tlGet
    rw [hb]
    rfl

/-- C4 witness: on a fresh critical instance, thread 0 sets `x`; thread 1,
reading under the same (copied) context value, sees nothing and fails with
MissingKey. -/
theorem C4_witness :
    Local.getattrOp (setState (mkLocal true) none 0 "x" (Val.vint 7)) (copyContext none) 1 "x"
      = Local.getattrOp (mkLocal true) (copyContext none) 1 "x" ∧
    Local.getattrOp (setState (mkLocal true) none 0 "x" (Val.vint 7)) (copyContext none) 1 "x"
      = Except.error (Err.MissingKey "x") :=
  C4_thread_isolation (mkLocal true) none (copyContext none) 0 1 "x" (Val.vint 7)
    (by decide) (by decide) (by decide) (by decide) (by decide) (by decide)

/-- C9: a set of any of the four reserved names succeeds, stores the value
in the facade instance dict — leaving the heap, the per-thread table and
the `_data` slot untouched — and the value is then read back from every
context and every thread; a set of `_data` in context-scoped mode likewise
stores on the `_CVar` object and is visible from every context and every
thread; and for any non-reserved key a set never writes the facade. -/
theorem C9_reserved_on_facade (s : Local) (c c2 : Ctx) (t t2 : Nat) (k : String) (x : Val)
    (hfac : facadeOnlyReserved s = true) :
    (k ∈ reservedNames →
      setRes s c t k x = Except.ok () ∧
      Local.getattrOp (setState s c t k x) c2 t2 k = Except.ok (PyVal.v x) ∧
      (setState s c t k x).heap = s.heap ∧
      (setState s c t k x).threads = s.threads ∧
      (setState s c t k x).dataSlot = s.dataSlot) ∧
    (storageSlot s = PyVal.storeCVar →
      setRes s c t "_data" x = Except.ok () ∧
      (setState s c t "_data" x).dataSlot = PyVal.v x ∧
      Local.getattrOp (setState s c t "_data" x) c2 t2 "_data" = Except.ok (PyVal.v x) ∧
      (setState s c t "_data" x).heap = s.heap ∧
      (setState s c t "_data" x).threads = s.threads ∧
      (setState s c t "_data" x).facade = s.facade) ∧
    (k ∉ reservedNames → (setState s c t k x).facade = s.facade) := by
  refine ⟨?_, ?_, ?_⟩
  · intro hres
    have hred := setattrOp_reserved s c t k x hres
    have hs1 : setState s c t k x = { s with facade := alInsert s.facade k (PyVal.v x) } := by
      unfold setState
      rw [hred]
    refine ⟨?_, ?_, by rw [hs1], by rw [hs1], by rw [hs1]⟩
    · unfold setRes
      rw [hred]
    · rw [hs1]
      exact getattrOp_facade _ _ _ _ _ (alLookup_alInsert_self _ _ _)
  · intro hcv
    have hred := setattrOp_cvar_data s c t x hcv
    have hs1 : setState s c t "_data" x = { s with dataSlot := PyVal.v x } := by
      unfold setState
      rw [hred]
    have hdn : alLookup s.facade "_data" = none :=
      alLookup_none_of_facadeOnlyReserved s "_data" hfac (by decide)
    refine ⟨?_, by rw [hs1], ?_, by rw [hs1], by rw [hs1], by rw [hs1]⟩
    · unfold setRes
      rw [hred]
    · rw [hs1]
      exact getattrOp_data _ c2 t2 hdn hcv
  · intro hres
    unfold setState Local.setattrOp
    rw [if_neg hres]
    cases hss : storageSlot s <;> simp

/-- C9 witness: on a fresh non-critical instance, a set of the reserved key
`_local` from one scope is read back from a different context and thread,
and so is a set of `_data`. -/
theorem C9_witness :
    Local.getattrOp (setState (mkLocal false) none 0 "_local" (Val.vint 3)) (some 5) 9 "_local"
      = Except.ok (PyVal.v (Val.vint 3)) ∧
    Local.getattrOp (setState (mkLocal false) none 0 "_data" (Val.vint 4)) (some 5) 9 "_data"
      = Except.ok (PyVal.v (Val.vint 4)) := by
  have h1 := C9_reserved_on_facade (mkLocal false) none (some 5) 0 9 "_local" (Val.vint 3)
    (by decide)
  have h2 := C9_reserved_on_facade (mkLocal false) none (some 5) 0 9 "_data" (Val.vint 4)
    (by decide)
  exact ⟨(h1.1 (by decide)).2.1, (h2.2.1 (by decide)).2.2.1⟩

/-! C8: the concurrent increment scenario. -/

theorem csysStep_read (r : Ref) (sys : CSys) (i : Nat) (th : CThread)
    (hth : thrGet sys.thr i = some th) (hp : th.pend = false) :
    csysStep r sys i
      = { loc := sys.loc,
          thr := thrSet sys.thr i
            { pend := true,
              reg := readIntVal (Local.getattrOp sys.loc (some r) i counterKey),
              done := th.done } } := by
  unfold csysStep
  rw [hth]
  simp [hp]

theorem csysStep_write (r : Ref) (sys : CSys) (i : Nat) (th : CThread)
    (hth : thrGet sys.thr i = some th) (hp : th.pend = true) :
    csysStep r sys i
      = { loc := setState sys.loc (some r) i counterKey (Val.vint (th.reg + 1)),
          thr := thrSet sys.thr i { pend := false, reg := th.reg, done := th.done + 1 } } := by
  unfold csysStep
  rw [hth]
  simp [hp]

/-- One non-interleaved cycle of thread `i` increments the shared counter
by exactly one and restores the all-idle invariant. -/
theorem c8_block (r : Ref) (cnt : Int) (sys : CSys) (i : Nat)
    (hinv : c8Inv r cnt sys) (hi : i < sys.thr.length) :
    c8Inv r (cnt + 1) (csysStep r (csysStep r sys i) i) ∧
    (csysStep r (csysStep r sys i) i).thr.length = sys.thr.length := by
  obtain ⟨hcv, hds, hfacK, hr, hcnt, hpend⟩ := hinv
  obtain ⟨th, hth⟩ := thrGet_isSome sys.thr i hi
  have hp : th.pend = false := hpend th (thrGet_mem _ _ _ hth)
  have hget : Local.getattrOp sys.loc (some r) i counterKey
      = Except.ok (PyVal.v (Val.vint cnt)) := by
    refine getattrOp_cvar_found _ _ i counterKey (Val.vint cnt) ?_ (by decide) hcv hds
      (by decide) ?_
    · exact hfacK
    · exact hcnt
  have hstep1 : csysStep r sys i
      = { loc := sys.loc,
          thr := thrSet sys.thr i { pend := true, reg := cnt, done := th.done } } := by
    rw [csysStep_read r sys i th hth hp, hget]
    rfl
  have hth2 : thrGet (csysStep r sys i).thr i
      = some { pend := true, reg := cnt, done := th.done } := by
    rw [hstep1]
    exact thrGet_thrSet_self sys.thr i _ hi
  have hstep2 : csysStep r (csysStep r sys i) i
      = { loc := setState (csysStep r sys i).loc (some r) i counterKey (Val.vint (cnt + 1)),
          thr := thrSet (csysStep r sys i).thr i
            { pend := false, reg := cnt, done := th.done + 1 } } :=
    csysStep_write r (csysStep r sys i) i { pend := true, reg := cnt, done := th.done }
      hth2 rfl
  have hloc : (csysStep r (csysStep r sys i) i).loc
      = { sys.loc with
          dataSlot := PyVal.ctxvar,
          heap := hSet sys.loc.heap r
            (alInsert (hGet sys.loc.heap r) counterKey (Val.vint (cnt + 1))) } := by
    rw [hstep2, hstep1]
    show setState sys.loc (some r) i counterKey (Val.vint (cnt + 1)) = _
    unfold setState
    rw [setattrOp_cvar_some sys.loc i r counterKey (Val.vint (cnt + 1)) hcv hds
      (by decide) (by decide)]
  have hthr : (csysStep r (csysStep r sys i) i).thr
      = thrSet sys.thr i { pend := false, reg := cnt, done := th.done + 1 } := by
    rw [hstep2, hstep1]
    exact thrSet_thrSet_self sys.thr i _ _
  constructor
  · refine ⟨?_, ?_, ?_, ?_, ?_, ?_⟩
    · rw [hloc]
      exact hcv
    · rw [hloc]
    · rw [hloc]
      exact hfacK
    · rw [hloc]
      simpa [length_hSet] using hr
    · rw [hloc]
      show alLookup (hGet (hSet sys.loc.heap r
          (alInsert (hGet sys.loc.heap r) counterKey (Val.vint (cnt + 1)))) r) counterKey
        = some (Val.vint (cnt + 1))
      rw [hGet_hSet_self _ _ _ hr, alLookup_alInsert_self]
    · rw [hthr]
      intro th2 hmem
      rcases mem_thrSet _ _ _ _ hmem with hmem2 | heq
      · exact hpend th2 hmem2
      · rw [heq]
  · rw [hthr]
    exact length_thrSet _ _ _

/-- Running any list of non-interleaved cycles adds exactly one per cycle. -/
theorem c8_run_serial (r : Ref) (order : List Nat) :
    ∀ (cnt : Int) (sys : CSys), c8Inv r cnt sys → (∀ i ∈ order, i < sys.thr.length) →
      c8Inv r (cnt + order.length) (csysRun r sys (serialSched order)) ∧
      (csysRun r sys (serialSched order)).thr.length = sys.thr.length := by
  induction order with
  | nil =>
    intro cnt sys hinv ho
    constructor
    · simpa [csysRun, serialSched] using hinv
    · simp [csysRun, serialSched]
  | cons i rest ih =>
    intro cnt sys hinv ho
    have hi : i < sys.thr.length := ho i (List.mem_cons_self i rest)
    have hblk := c8_block r cnt sys i hinv hi
    have heq : csysRun r sys (serialSched (i :: rest))
        = csysRun r (csysStep r (csysStep r sys i) i) (serialSched rest) := rfl
    rw [heq]
    have ho2 : ∀ j ∈ rest, j < (csysStep r (csysStep r sys i) i).thr.length := by
      rw [hblk.2]
      exact fun j hj => ho j (List.mem_cons_of_mem i hj)
    have hrun := ih (cnt + 1) (csysStep r (csysStep r sys i) i) hblk.1 ho2
    constructor
    · have harith : cnt + ((i :: rest).length : Int) = cnt + 1 + (rest.length : Int) := by
        simp only [List.length_cons]
        push_cast
        ring
      rw [harith]
      exact hrun.1
    · rw [hrun.2, hblk.2]

/-- C8 counterexample: two threads sharing one copied context binding each
run one complete get-then-set increment cycle against the counter on a
non-critical instance (every get and every set is one atomic locked
operation), under the interleaving read-read-write-write.  Both threads
complete their one cycle (the done counters end at `[1, 1]`), yet the
final counter is 1, not N times M = 2: the mutex serializes the individual
operations but not the caller's read-modify-write sequence, so one update
is lost and the claimed final value is wrong. -/
theorem C8_counterexample :
    alLookup (hGet (csysRun 0
        { loc := setState (mkLocal false) none 0 counterKey (Val.vint 0),
          thr := [{ pend := false, reg := 0, done := 0 },
                  { pend := false, reg := 0, done := 0 }] }
        [0, 1, 0, 1]).loc.heap 0) counterKey = some (Val.vint 1) ∧
    ((csysRun 0
        { loc := setState (mkLocal false) none 0 counterKey (Val.vint 0),
          thr := [{ pend := false, reg := 0, done := 0 },
                  { pend := false, reg := 0, done := 0 }] }
        [0, 1, 0, 1]).thr.map fun th => th.done) = [1, 1] ∧
    ¬ alLookup (hGet (csysRun 0
        { loc := setState (mkLocal false) none 0 counterKey (Val.vint 0),
          thr := [{ pend := false, reg := 0, done := 0 },
                  { pend := false, reg := 0, done := 0 }] }
        [0, 1, 0, 1]).loc.heap 0) counterKey = some (Val.vint 2) := by decide

/-- C8 amended: the mutex makes each individual get and set atomic, so
when the increment cycles themselves are not interleaved — every thread's
get is immediately followed by that thread's set, as in any schedule of
the form `serialSched order` — no update is lost: starting from an
all-idle system with the counter at `cnt`, after the listed cycles the
counter is exactly `cnt` plus the number of cycles (that is N times M when
each of N threads completes M cycles), and every thread is idle again.
Under an interleaved schedule the final value can be smaller, as the
counterexample shows: a caller-level read-modify-write cycle is not made
atomic by the per-operation lock. -/
theorem C8_serialized_counter (r : Ref) (cnt : Int) (sys : CSys) (order : List Nat)
    (hinv : c8Inv r cnt sys) (ho : ∀ i ∈ order, i < sys.thr.length) :
    alLookup (hGet (csysRun r sys (serialSched order)).loc.heap r) counterKey
      = some (Val.vint (cnt + order.length)) ∧
    ∀ th ∈ (csysRun r sys (serialSched order)).thr, th.pend = false := by
  have h := c8_run_serial r order cnt sys hinv ho
  exact ⟨h.1.2.2.2.2.1, h.1.2.2.2.2.2⟩

/-- C8 witness: two threads, one serialized cycle each, counter ends at 2. -/
theorem C8_witness :
    alLookup (hGet (csysRun 0
        { loc := setState (mkLocal false) none 0 counterKey (Val.vint 0),
          thr := [{ pend := false, reg := 0, done := 0 },
                  { pend := false, reg := 0, done := 0 }] }
        (serialSched [0, 1])).loc.heap 0) counterKey = some (Val.vint 2) := by
  have h := C8_serialized_counter 0 0
    { loc := setState (mkLocal false) none 0 counterKey (Val.vint 0),
      thr := [{ pend := false, reg := 0, done := 0 },
              { pend := false, reg := 0, done := 0 }] }
    [0, 1]
    ⟨by decide, by decide, by decide, by decide, by decide, by decide⟩
    (by decide)
  simpa using h.1

end Asgiref
